import Mathlib

/-!
# Verification of the orchestrator state manager

A shallow embedding of `src/scripts/core/state-manager.ts` (operating on the
data model of `src/scripts/core/types.ts`) together with proofs of the claims
about it.

Modelling conventions:
* ISO-8601 timestamp strings (`new Date().toISOString()`) are modelled by the
  underlying instant in milliseconds, a `Nat`; the wall clock is passed to each
  operation as an explicit `now` argument.
* JavaScript numbers holding counts (`attempts`, `maxAttempts`,
  `checkpointFrequency`, progress counters) are modelled as `Nat`; values
  produced by JavaScript subtraction that may be negative are modelled as
  `Int`.  `Math.round(x)` (half toward positive infinity) is modelled exactly
  on rationals `num/den` by `jsRoundDiv`.
* `zod` records with enum keys (`state.phases`) admit missing keys, so the
  phase table stores an `Option PhaseStatus` per phase.
* Disk I/O is factored out: `createCheckpoint` additionally returns the state
  snapshot it writes to the checkpoint file, and `restoreCheckpoint` receives
  that snapshot as an argument.
-/

namespace Orch

/-- `PhaseSchema` from types.ts. -/
inductive Phase where
  | ideation | specification | architecture | planning
  | implementation | testing | deployment | complete
deriving DecidableEq, Repr

/-- `TaskStatusSchema` from types.ts. -/
inductive TaskStatus where
  | pending | in_progress | completed | blocked | skipped
deriving DecidableEq, Repr

/-- `TaskPrioritySchema` from types.ts. -/
inductive TaskPriority where
  | critical | high | medium | low
deriving DecidableEq, Repr

/-- `AgentTypeSchema` from types.ts. -/
inductive AgentType where
  | orchestrator | specWriter | architect | taskPlanner
  | frontendDev | backendDev | databaseExpert | apiDesigner
  | devopsEngineer | testEngineer | codeReviewer | securityAuditor
  | performanceAnalyst | bugFixer | documentation | refactorer
deriving DecidableEq, Repr

/-- Status values of `PhaseStatusSchema.status`. -/
inductive PhaseStatusKind where
  | pending | in_progress | complete | skipped
deriving DecidableEq, Repr

/-- `PhaseStatusSchema` from types.ts. -/
structure PhaseStatus where
  status : PhaseStatusKind
  startedAt : Option Nat
  completedAt : Option Nat
deriving DecidableEq, Repr

/-- `TaskSchema` from types.ts. -/
structure Task where
  id : String
  title : String
  description : String
  status : TaskStatus
  priority : TaskPriority
  agent : AgentType
  epic : Option String := none
  story : Option String := none
  dependencies : List String := []
  outputs : List String := []
  acceptanceCriteria : List String := []
  estimatedMinutes : Option Int := none
  actualMinutes : Option Int := none
  attempts : Nat := 0
  maxAttempts : Nat := 3
  startedAt : Option Nat := none
  completedAt : Option Nat := none
  error : Option String := none
deriving DecidableEq, Repr

/-- `BlockerSchema` from types.ts. -/
structure Blocker where
  taskId : String
  reason : String
  since : Nat
  attempts : Nat
deriving DecidableEq, Repr

/-- `DecisionSchema` from types.ts. -/
structure Decision where
  id : String
  topic : String
  decision : String
  rationale : String
  alternatives : Option (List String) := none
  decidedAt : Nat
  decidedBy : AgentType
deriving DecidableEq, Repr

/-- `CheckpointSchema` from types.ts. -/
structure Checkpoint where
  id : String
  timestamp : Nat
  phase : Phase
  tasksCompleted : Nat
  gitCommit : Option String := none
  description : Option String := none
deriving DecidableEq, Repr

/-- The `details : Record<string, unknown>` payloads that state-manager.ts
actually attaches to history entries, one constructor per producing call. -/
inductive HistoryDetails where
  | projectInitialized (name description : String)
  | phaseTransition (fromPhase toPhase : Phase)
  | taskStarted (attempt : Nat)
  | taskCompleted (actualMinutes : Option Int)
  | taskFailed (error : String) (attempt : Nat) (willRetry : Bool)
  | decisionMade (topic decision : String)
  | checkpointCreated (checkpointId : String) (tasksCompleted : Nat)
  | checkpointRestored (checkpointId : String)
  | techStackSet
deriving DecidableEq, Repr

/-- `HistoryEntrySchema` from types.ts. -/
structure HistoryEntry where
  timestamp : Nat
  action : String
  agent : Option AgentType := none
  taskId : Option String := none
  details : Option HistoryDetails := none
deriving DecidableEq, Repr

/-- `ProgressSchema` from types.ts. -/
structure Progress where
  total : Nat
  completed : Nat
  inProgress : Nat
  blocked : Nat
  skipped : Nat
  percentage : Nat
deriving DecidableEq, Repr

/-- `CurrentTaskSchema` from types.ts. -/
structure CurrentTask where
  id : String
  agent : AgentType
  startedAt : Nat
  attempt : Nat
deriving DecidableEq, Repr

/-- `MetricsSchema` from types.ts. -/
structure Metrics where
  totalTime : Option String := none
  avgTaskTime : Option String := none
  retryRate : Option Int := none
  testCoverage : Option Int := none
  lintErrors : Option Int := none
  typeErrors : Option Int := none
deriving DecidableEq, Repr

/-- Frontend part of `TechStackSchema`. -/
structure TechStackFrontend where
  framework : String
  version : Option String := none
  buildTool : Option String := none
  styling : Option String := none
  stateManagement : Option String := none
  router : Option String := none
  componentLibrary : Option String := none
deriving DecidableEq, Repr

/-- Backend part of `TechStackSchema`. -/
structure TechStackBackend where
  runtime : String
  version : Option String := none
  framework : Option String := none
  orm : Option String := none
  database : Option String := none
deriving DecidableEq, Repr

/-- Testing part of `TechStackSchema`. -/
structure TechStackTesting where
  unit : Option String := none
  integration : Option String := none
  e2e : Option String := none
deriving DecidableEq, Repr

/-- Deployment part of `TechStackSchema`. -/
structure TechStackDeployment where
  platform : Option String := none
  ci : Option String := none
  containerization : Option String := none
deriving DecidableEq, Repr

/-- `TechStackSchema` from types.ts. -/
structure TechStack where
  frontend : Option TechStackFrontend := none
  backend : Option TechStackBackend := none
  testing : Option TechStackTesting := none
  deployment : Option TechStackDeployment := none
deriving DecidableEq, Repr

/-- The `autonomyLevel` enum of the config object. -/
inductive AutonomyLevel where
  | low | medium | high | full
deriving DecidableEq, Repr

/-- The `config` object of `ProjectStateSchema`. -/
structure Config where
  autonomyLevel : AutonomyLevel := AutonomyLevel.high
  checkpointFrequency : Nat := 5
  autoCommit : Bool := true
  maxParallelTasks : Nat := 3
  maxRetries : Nat := 3
deriving DecidableEq, Repr

/-- The `project` object of `ProjectStateSchema`. -/
structure ProjectInfo where
  id : String
  name : String
  slug : String
  description : String
  created : Nat
  updated : Nat
  version : String := "0.1.0"
deriving DecidableEq, Repr

/-- `z.record(PhaseSchema, PhaseStatusSchema)`: a table with one optional
entry per phase (zod does not require every enum key to be present). -/
structure Phases where
  ideation : Option PhaseStatus := none
  specification : Option PhaseStatus := none
  architecture : Option PhaseStatus := none
  planning : Option PhaseStatus := none
  implementation : Option PhaseStatus := none
  testing : Option PhaseStatus := none
  deployment : Option PhaseStatus := none
  complete : Option PhaseStatus := none
deriving DecidableEq, Repr

/-- Index the phase table (`state.phases[p]`). -/
def Phases.get (ps : Phases) : Phase → Option PhaseStatus
  | Phase.ideation => ps.ideation
  | Phase.specification => ps.specification
  | Phase.architecture => ps.architecture
  | Phase.planning => ps.planning
  | Phase.implementation => ps.implementation
  | Phase.testing => ps.testing
  | Phase.deployment => ps.deployment
  | Phase.complete => ps.complete

/-- Update one entry of the phase table (`state.phases[p] = v`). -/
def Phases.set (ps : Phases) : Phase → PhaseStatus → Phases
  | Phase.ideation, v => { ps with ideation := some v }
  | Phase.specification, v => { ps with specification := some v }
  | Phase.architecture, v => { ps with architecture := some v }
  | Phase.planning, v => { ps with planning := some v }
  | Phase.implementation, v => { ps with implementation := some v }
  | Phase.testing, v => { ps with testing := some v }
  | Phase.deployment, v => { ps with deployment := some v }
  | Phase.complete, v => { ps with complete := some v }

/-- `ProjectStateSchema` from types.ts. -/
structure ProjectState where
  project : ProjectInfo
  phase : Phase
  phases : Phases
  techStack : Option TechStack := none
  tasks : List Task := []
  currentTasks : List CurrentTask := []
  progress : Progress
  blockers : List Blocker := []
  decisions : List Decision := []
  checkpoints : List Checkpoint := []
  history : List HistoryEntry := []
  metrics : Option Metrics := none
  config : Option Config := none
deriving DecidableEq, Repr

/-! ## Operations of state-manager.ts -/

/-- `Math.round(num / den)` for a positive denominator, computed exactly on
rationals: JavaScript `Math.round` is floor of `x + 1/2`. -/
def jsRoundDiv (num den : Int) : Int :=
  Int.fdiv (2 * num + den) (2 * den)

/-- The `priorityOrder` rank table used by `getNextTask` and
`getParallelizableTasks`: `{ critical: 0, high: 1, medium: 2, low: 3 }`. -/
def priorityOrder : TaskPriority → Nat
  | TaskPriority.critical => 0
  | TaskPriority.high => 1
  | TaskPriority.medium => 2
  | TaskPriority.low => 3

/-- The comparator `(a, b) => priorityOrder[a.priority] - priorityOrder[b.priority]`
passed to the (stable) `Array.prototype.sort`, as a boolean total preorder. -/
def taskLE (a b : Task) : Bool :=
  decide (priorityOrder a.priority ≤ priorityOrder b.priority)

/-- `addHistory` of StateManager. -/
def addHistory (s : ProjectState) (now : Nat) (action : String)
    (agent : Option AgentType) (taskId : Option String)
    (details : Option HistoryDetails) : ProjectState :=
  { s with history := s.history ++
      [{ timestamp := now, action := action, agent := agent,
         taskId := taskId, details := details }] }

/-- `transitionPhase` of StateManager. -/
def transitionPhase (s : ProjectState) (newPhase : Phase) (now : Nat) :
    ProjectState :=
  let currentPhase := s.phase
  let phases1 :=
    match s.phases.get currentPhase with
    | some st => s.phases.set currentPhase
        { st with status := PhaseStatusKind.complete, completedAt := some now }
    | none => s.phases
  let phases2 :=
    match phases1.get newPhase with
    | some st => phases1.set newPhase
        { st with status := PhaseStatusKind.in_progress, startedAt := some now }
    | none => phases1
  let s := { s with phase := newPhase, phases := phases2 }
  addHistory s now "phase_transition" none none
    (some (HistoryDetails.phaseTransition currentPhase newPhase))

/-- `areDependenciesMet` of StateManager: every dependency id must resolve
(via `Array.prototype.find`) to a task whose status is `completed`. -/
def areDependenciesMet (s : ProjectState) (task : Task) : Bool :=
  task.dependencies.all fun depId =>
    match s.tasks.find? (fun t => t.id == depId) with
    | some dep => dep.status == TaskStatus.completed
    | none => false

/-- The filter applied by both `getNextTask` and `getParallelizableTasks`:
status `pending` and all dependencies met. -/
def isEligible (s : ProjectState) (t : Task) : Bool :=
  t.status == TaskStatus.pending && areDependenciesMet s t

/-- The `pendingTasks` list computed by `getNextTask` and
`getParallelizableTasks`. -/
def eligibleTasks (s : ProjectState) : List Task :=
  s.tasks.filter (isEligible s)

/-- `getNextTask` of StateManager: filter, stable-sort by priority rank,
return the first element (or `null` on the empty list). -/
def getNextTask (s : ProjectState) : Option Task :=
  ((eligibleTasks s).mergeSort taskLE).head?

/-- One step of building the `byAgent` map: JavaScript `Map` iteration order
is key insertion order, so the map is an association list in first-encountered
order, with each group keeping task order. -/
def addToGroups (groups : List (AgentType × List Task)) (t : Task) :
    List (AgentType × List Task) :=
  match groups with
  | [] => [(t.agent, [t])]
  | (a, g) :: rest =>
    if a = t.agent then (a, g ++ [t]) :: rest
    else (a, g) :: addToGroups rest t

/-- The `byAgent` grouping loop of `getParallelizableTasks`. -/
def groupByAgent (tasks : List Task) : List (AgentType × List Task) :=
  tasks.foldl addToGroups []

/-- `hasFileConflict` of StateManager: the candidate conflicts when some
already-selected task has an output contained in the candidate's outputs. -/
def hasFileConflict (selectedTasks : List Task) (newTask : Task) : Bool :=
  selectedTasks.any fun task =>
    task.outputs.any fun output => newTask.outputs.contains output

/-- The selection loop of `getParallelizableTasks`: for each agent group (in
insertion order) stop once `maxTasks` tasks are selected, otherwise sort the
group by priority and pick the first task without an output conflict. -/
def selectFromGroups : List (AgentType × List Task) → Nat → List Task →
    List Task
  | [], _, selected => selected
  | (_, g) :: rest, maxTasks, selected =>
    if selected.length ≥ maxTasks then selected
    else
      match (g.mergeSort taskLE).find? (fun t => !hasFileConflict selected t) with
      | some t => selectFromGroups rest maxTasks (selected ++ [t])
      | none => selectFromGroups rest maxTasks selected

/-- `getParallelizableTasks` of StateManager. -/
def getParallelizableTasks (s : ProjectState) (maxTasks : Nat) : List Task :=
  selectFromGroups (groupByAgent (eligibleTasks s)) maxTasks []

/-- In-place mutation of the task object returned by
`state.tasks.find(t => t.id === taskId)`: only the first task with the given
id changes. -/
def replaceFirstTask : List Task → String → Task → List Task
  | [], _, _ => []
  | u :: us, taskId, t =>
    if u.id == taskId then t :: us else u :: replaceFirstTask us taskId t

/-- `updateProgress` of StateManager.  The percentage
`Math.round((completed / total) * 100)` is modelled by exact rational
rounding. -/
def updateProgress (s : ProjectState) : ProjectState :=
  let tasks := s.tasks
  let total := tasks.length
  let completed := (tasks.filter fun t => t.status == TaskStatus.completed).length
  let inProgress := (tasks.filter fun t => t.status == TaskStatus.in_progress).length
  let blocked := (tasks.filter fun t => t.status == TaskStatus.blocked).length
  let skipped := (tasks.filter fun t => t.status == TaskStatus.skipped).length
  { s with progress :=
      { total := total, completed := completed, inProgress := inProgress,
        blocked := blocked, skipped := skipped,
        percentage := if 0 < total then (200 * completed + total) / (2 * total) else 0 } }

/-- `startTask` of StateManager. -/
def startTask (s : ProjectState) (taskId : String) (now : Nat) :
    Option Task × ProjectState :=
  match s.tasks.find? (fun t => t.id == taskId) with
  | none => (none, s)
  | some task =>
    let task := { task with
      status := TaskStatus.in_progress,
      startedAt := some now,
      attempts := task.attempts + 1 }
    let s := { s with
      tasks := replaceFirstTask s.tasks taskId task,
      currentTasks := s.currentTasks ++
        [{ id := taskId, agent := task.agent, startedAt := now,
           attempt := task.attempts }] }
    let s := updateProgress s
    let s := addHistory s now "task_started" (some task.agent) (some taskId)
      (some (HistoryDetails.taskStarted task.attempts))
    (some task, s)

/-- `completeTask` of StateManager. -/
def completeTask (s : ProjectState) (taskId : String) (now : Nat) :
    Option Task × ProjectState :=
  match s.tasks.find? (fun t => t.id == taskId) with
  | none => (none, s)
  | some task =>
    let actualMinutes :=
      match task.startedAt with
      | some start => some (jsRoundDiv ((now : Int) - (start : Int)) 60000)
      | none => task.actualMinutes
    let task := { task with
      status := TaskStatus.completed,
      completedAt := some now,
      error := none,
      actualMinutes := actualMinutes }
    let s := { s with
      tasks := replaceFirstTask s.tasks taskId task,
      currentTasks := s.currentTasks.filter fun ct => !(ct.id == taskId) }
    let s := updateProgress s
    let s := addHistory s now "task_completed" (some task.agent) (some taskId)
      (some (HistoryDetails.taskCompleted task.actualMinutes))
    (some task, s)

/-- `failTask` of StateManager. -/
def failTask (s : ProjectState) (taskId : String) (error : String)
    (now : Nat) : Option Task × ProjectState :=
  match s.tasks.find? (fun t => t.id == taskId) with
  | none => (none, s)
  | some task =>
    let task := { task with error := some error }
    let branch :=
      if task.attempts ≥ task.maxAttempts then
        ({ task with status := TaskStatus.blocked },
         s.blockers ++ [{ taskId := taskId, reason := error, since := now,
                          attempts := task.attempts }])
      else
        ({ task with status := TaskStatus.pending }, s.blockers)
    let task := branch.1
    let s := { s with
      tasks := replaceFirstTask s.tasks taskId task,
      blockers := branch.2,
      currentTasks := s.currentTasks.filter fun ct => !(ct.id == taskId) }
    let s := updateProgress s
    let s := addHistory s now "task_failed" (some task.agent) (some taskId)
      (some (HistoryDetails.taskFailed error task.attempts
        (task.status == TaskStatus.pending)))
    (some task, s)

/-- `addTasks` of StateManager. -/
def addTasks (s : ProjectState) (tasks : List Task) : ProjectState :=
  updateProgress { s with tasks := s.tasks ++ tasks }

/-- `String(n).padStart(3, "0")` used for checkpoint ids. -/
def padTo3 (n : Nat) : String :=
  let str := toString n
  if str.length ≥ 3 then str
  else String.mk (List.replicate (3 - str.length) '0') ++ str

/-- `save` of StateManager, minus disk I/O: it stamps `project.updated` (the
zod re-validation is the identity on well-typed states). -/
def save (s : ProjectState) (now : Nat) : ProjectState :=
  { s with project := { s.project with updated := now } }

/-- `createCheckpoint` of StateManager.  Returns the checkpoint record, the
live state (with the `checkpoint_created` history entry), and the snapshot
written to the checkpoint file — the file is written before the history entry
is appended, so the snapshot does not contain it. -/
def createCheckpoint (s : ProjectState) (now : Nat)
    (gitCommit description : Option String) :
    Checkpoint × ProjectState × ProjectState :=
  let checkpoint : Checkpoint :=
    { id := "CP-" ++ padTo3 (s.checkpoints.length + 1),
      timestamp := now,
      phase := s.phase,
      tasksCompleted := s.progress.completed,
      gitCommit := gitCommit,
      description := description }
  let snapshot := { s with checkpoints := s.checkpoints ++ [checkpoint] }
  let live := addHistory snapshot now "checkpoint_created" none none
    (some (HistoryDetails.checkpointCreated checkpoint.id checkpoint.tasksCompleted))
  (checkpoint, live, snapshot)

/-- `restoreCheckpoint` of StateManager: parse the checkpoint file (the
`snapshot` argument models its contents), append the `checkpoint_restored`
history entry, and `save`. -/
def restoreCheckpoint (snapshot : ProjectState) (checkpointId : String)
    (now nowSaved : Nat) : ProjectState :=
  let s := addHistory snapshot now "checkpoint_restored" none none
    (some (HistoryDetails.checkpointRestored checkpointId))
  save s nowSaved

/-- `isComplete` of StateManager. -/
def isComplete (s : ProjectState) : Bool :=
  decide (0 < s.tasks.length) &&
    s.tasks.all fun t =>
      t.status == TaskStatus.completed || t.status == TaskStatus.skipped

/-- `shouldCheckpoint` of StateManager.  `state.config?.checkpointFrequency || 5`
falls back to 5 both when the config is absent and when the configured
frequency is `0` (a falsy number); the subtraction is JavaScript number
subtraction, modelled on `Int`. -/
def shouldCheckpoint (s : ProjectState) : Bool :=
  let freq : Nat :=
    match s.config with
    | some c => if c.checkpointFrequency == 0 then 5 else c.checkpointFrequency
    | none => 5
  let tasksSinceCheckpoint : Int :=
    match s.checkpoints.getLast? with
    | some cp => (s.progress.completed : Int) - (cp.tasksCompleted : Int)
    | none => (s.progress.completed : Int)
  decide (tasksSinceCheckpoint ≥ (freq : Int))

/-- The checkpoint-due predicate as claim C8 words it: the threshold
is the configured `checkpointFrequency`, with 5 substituted only when the
config object is absent. -/
def checkpointDueClaimC8 (s : ProjectState) : Bool :=
  let freq : Nat :=
    match s.config with
    | some c => c.checkpointFrequency
    | none => 5
  let tasksSinceCheckpoint : Int :=
    match s.checkpoints.getLast? with
    | some cp => (s.progress.completed : Int) - (cp.tasksCompleted : Int)
    | none => (s.progress.completed : Int)
  decide (tasksSinceCheckpoint ≥ (freq : Int))

/-! ## Basic facts about the operations -/

@[simp] theorem addHistory_tasks (s : ProjectState) (now : Nat) (a : String)
    (ag : Option AgentType) (tid : Option String) (d : Option HistoryDetails) :
    (addHistory s now a ag tid d).tasks = s.tasks := rfl

@[simp] theorem addHistory_blockers (s : ProjectState) (now : Nat) (a : String)
    (ag : Option AgentType) (tid : Option String) (d : Option HistoryDetails) :
    (addHistory s now a ag tid d).blockers = s.blockers := rfl

@[simp] theorem addHistory_currentTasks (s : ProjectState) (now : Nat) (a : String)
    (ag : Option AgentType) (tid : Option String) (d : Option HistoryDetails) :
    (addHistory s now a ag tid d).currentTasks = s.currentTasks := rfl

@[simp] theorem addHistory_progress (s : ProjectState) (now : Nat) (a : String)
    (ag : Option AgentType) (tid : Option String) (d : Option HistoryDetails) :
    (addHistory s now a ag tid d).progress = s.progress := rfl

@[simp] theorem addHistory_phase (s : ProjectState) (now : Nat) (a : String)
    (ag : Option AgentType) (tid : Option String) (d : Option HistoryDetails) :
    (addHistory s now a ag tid d).phase = s.phase := rfl

@[simp] theorem addHistory_history (s : ProjectState) (now : Nat) (a : String)
    (ag : Option AgentType) (tid : Option String) (d : Option HistoryDetails) :
    (addHistory s now a ag tid d).history = s.history ++
      [{ timestamp := now, action := a, agent := ag, taskId := tid,
         details := d }] := rfl

@[simp] theorem updateProgress_tasks (s : ProjectState) :
    (updateProgress s).tasks = s.tasks := rfl

@[simp] theorem updateProgress_blockers (s : ProjectState) :
    (updateProgress s).blockers = s.blockers := rfl

@[simp] theorem updateProgress_currentTasks (s : ProjectState) :
    (updateProgress s).currentTasks = s.currentTasks := rfl

@[simp] theorem updateProgress_history (s : ProjectState) :
    (updateProgress s).history = s.history := rfl

/-! ## Sample states used as witnesses -/

/-- A concrete project descriptor. -/
def sampleInfo : ProjectInfo :=
  { id := "11111111-2222-3333-4444-555555555555", name := "Demo",
    slug := "demo", description := "demo project", created := 0, updated := 0 }

/-- A phase table as `initialize` produces it. -/
def samplePhases : Phases :=
  { ideation := some { status := PhaseStatusKind.in_progress,
                       startedAt := some 0, completedAt := none },
    specification := some { status := PhaseStatusKind.pending,
                            startedAt := none, completedAt := none },
    architecture := some { status := PhaseStatusKind.pending,
                           startedAt := none, completedAt := none },
    planning := some { status := PhaseStatusKind.pending,
                       startedAt := none, completedAt := none },
    implementation := some { status := PhaseStatusKind.pending,
                             startedAt := none, completedAt := none },
    testing := some { status := PhaseStatusKind.pending,
                      startedAt := none, completedAt := none },
    deployment := some { status := PhaseStatusKind.pending,
                         startedAt := none, completedAt := none },
    complete := some { status := PhaseStatusKind.pending,
                       startedAt := none, completedAt := none } }

/-- A concrete pending task. -/
def sampleTask : Task :=
  { id := "T1", title := "build api", description := "implement the api",
    status := TaskStatus.pending, priority := TaskPriority.high,
    agent := AgentType.backendDev, dependencies := [], outputs := ["api.ts"],
    attempts := 0, maxAttempts := 3 }

/-- A concrete project state holding one pending task. -/
def sampleState : ProjectState :=
  { project := sampleInfo, phase := Phase.ideation, phases := samplePhases,
    tasks := [sampleTask], currentTasks := [],
    progress := { total := 1, completed := 0, inProgress := 0, blocked := 0,
                  skipped := 0, percentage := 0 },
    blockers := [], decisions := [], checkpoints := [],
    history := [], config := some {} }

/-- `sampleState` with configured checkpoint frequency `0`. -/
def zeroFreqState : ProjectState :=
  { sampleState with config := some { checkpointFrequency := 0 } }

/-! ## C9: task-lookup misses are silent no-ops -/

/-- C9: for an id that matches no task, `startTask`, `completeTask` and
`failTask` each return an absent result and leave the state unchanged. -/
theorem lookupMiss_noop (s : ProjectState) (taskId err : String) (now : Nat)
    (h : s.tasks.find? (fun t => t.id == taskId) = none) :
    startTask s taskId now = (none, s) ∧
    completeTask s taskId now = (none, s) ∧
    failTask s taskId err now = (none, s) := by
  refine ⟨?_, ?_, ?_⟩ <;> simp only [startTask, completeTask, failTask, h]

/-- Witness for C9 at a concrete state and an id it does not contain. -/
theorem lookupMiss_noop_witness :
    sampleState.tasks.find? (fun t => t.id == "T9") = none ∧
    startTask sampleState "T9" 7 = (none, sampleState) ∧
    completeTask sampleState "T9" 7 = (none, sampleState) ∧
    failTask sampleState "T9" "boom" 7 = (none, sampleState) :=
  ⟨by decide,
   (lookupMiss_noop sampleState "T9" "boom" 7 (by decide)).1,
   (lookupMiss_noop sampleState "T9" "boom" 7 (by decide)).2.1,
   (lookupMiss_noop sampleState "T9" "boom" 7 (by decide)).2.2⟩

/-! ## C10: isComplete -/

/-- C10: `isComplete` is true exactly when the task collection is non-empty
and every task is `completed` or `skipped`; an empty collection is never
complete. -/
theorem isComplete_iff (s : ProjectState) :
    isComplete s = true ↔
      s.tasks ≠ [] ∧
        ∀ t ∈ s.tasks,
          t.status = TaskStatus.completed ∨ t.status = TaskStatus.skipped := by
  simp [isComplete, List.all_eq_true, List.length_pos]

/-! ## C6: checkpoint round-trip -/

/-- C6: restoring the checkpoint just created yields a state whose tasks
(hence task statuses) and phase equal those at capture time; live and
restored state differ from the captured one only by the appended
`checkpoint_created` / `checkpoint_restored` history entries and checkpoint
bookkeeping. -/
theorem checkpoint_roundTrip (s : ProjectState) (now1 now2 now3 : Nat)
    (gitCommit description : Option String) :
    (restoreCheckpoint (createCheckpoint s now1 gitCommit description).2.2
        (createCheckpoint s now1 gitCommit description).1.id now2 now3).tasks
      = s.tasks ∧
    (restoreCheckpoint (createCheckpoint s now1 gitCommit description).2.2
        (createCheckpoint s now1 gitCommit description).1.id now2 now3).tasks.map
        Task.status
      = s.tasks.map Task.status ∧
    (restoreCheckpoint (createCheckpoint s now1 gitCommit description).2.2
        (createCheckpoint s now1 gitCommit description).1.id now2 now3).phase
      = s.phase ∧
    (createCheckpoint s now1 gitCommit description).2.1.tasks = s.tasks ∧
    (createCheckpoint s now1 gitCommit description).2.1.phase = s.phase ∧
    (restoreCheckpoint (createCheckpoint s now1 gitCommit description).2.2
        (createCheckpoint s now1 gitCommit description).1.id now2 now3).history
      = s.history ++
        [{ timestamp := now2, action := "checkpoint_restored",
           agent := none, taskId := none,
           details := some (HistoryDetails.checkpointRestored
             (createCheckpoint s now1 gitCommit description).1.id) }] ∧
    (createCheckpoint s now1 gitCommit description).2.1.history
      = s.history ++
        [{ timestamp := now1, action := "checkpoint_created",
           agent := none, taskId := none,
           details := some (HistoryDetails.checkpointCreated
             (createCheckpoint s now1 gitCommit description).1.id
             s.progress.completed) }] ∧
    (restoreCheckpoint (createCheckpoint s now1 gitCommit description).2.2
        (createCheckpoint s now1 gitCommit description).1.id now2 now3).checkpoints
      = s.checkpoints ++ [(createCheckpoint s now1 gitCommit description).1] := by
  refine ⟨rfl, rfl, rfl, rfl, rfl, rfl, rfl, rfl⟩

/-! ## C8: shouldCheckpoint -/

/-- Counterexample to C8 as stated: with a present config whose
`checkpointFrequency` is `0`, the claim's predicate (threshold = the
configured value) is true at zero completed tasks, but the code substitutes
5 for the falsy `0` and returns false. -/
theorem shouldCheckpoint_claim_cex :
    shouldCheckpoint zeroFreqState = false ∧
    checkpointDueClaimC8 zeroFreqState = true := by decide

/-- C8 amended: `shouldCheckpoint` is true iff completed-since-last-checkpoint
is at least the configured `checkpointFrequency`, where 5 is used both when
the config is absent and when the configured frequency is zero. -/
theorem shouldCheckpoint_amended (s : ProjectState) :
    shouldCheckpoint s = true ↔
      ((s.progress.completed : Int) -
        (match s.checkpoints.getLast? with
         | some cp => (cp.tasksCompleted : Int)
         | none => 0)) ≥
      (match s.config with
       | some c =>
         if c.checkpointFrequency = 0 then (5 : Int)
         else (c.checkpointFrequency : Int)
       | none => (5 : Int)) := by
  unfold shouldCheckpoint
  cases hcp : s.checkpoints.getLast? <;> cases hcf : s.config <;>
    simp only [decide_eq_true_eq]
  · omega
  · rename_i c
    by_cases hz : c.checkpointFrequency = 0
    · simp [hz]
    · simp [hz]
  · omega
  · rename_i c
    by_cases hz : c.checkpointFrequency = 0
    · simp [hz]
    · simp [hz]

/-! ## C7: transitionPhase -/

theorem Phases.get_set_self (ps : Phases) (p : Phase) (v : PhaseStatus) :
    (ps.set p v).get p = some v := by
  cases p <;> rfl

theorem Phases.get_set_ne (ps : Phases) (p q : Phase) (v : PhaseStatus)
    (h : q ≠ p) : (ps.set p v).get q = ps.get q := by
  cases p <;> cases q <;> simp_all [Phases.set, Phases.get]

/-- C7: `transitionPhase` completes the old phase, makes the target current
and in progress, and logs one `phase_transition` entry, with no sequencing
validation on the target (any distinct target phase, backward or ahead, is
accepted). -/
theorem transitionPhase_spec (s : ProjectState) (target : Phase) (now : Nat)
    (pc pt : PhaseStatus)
    (hc : s.phases.get s.phase = some pc)
    (ht : s.phases.get target = some pt)
    (hne : target ≠ s.phase) :
    (transitionPhase s target now).phase = target ∧
    (transitionPhase s target now).phases.get s.phase =
      some { pc with status := PhaseStatusKind.complete,
                     completedAt := some now } ∧
    (transitionPhase s target now).phases.get target =
      some { pt with status := PhaseStatusKind.in_progress,
                     startedAt := some now } ∧
    (transitionPhase s target now).history =
      s.history ++
        [{ timestamp := now, action := "phase_transition", agent := none,
           taskId := none,
           details := some (HistoryDetails.phaseTransition s.phase target) }] := by
  have hne2 : s.phase ≠ target := Ne.symm hne
  simp only [transitionPhase, addHistory, hc]
  rw [Phases.get_set_ne _ _ _ _ hne, ht]
  refine ⟨trivial, ?_, ?_, trivial⟩
  · rw [Phases.get_set_ne _ _ _ _ hne2, Phases.get_set_self]
  · rw [Phases.get_set_self]

/-- Witness for C7: a concrete transition from `ideation` to
`specification`. -/
theorem transitionPhase_spec_witness :
    samplePhases.get Phase.ideation =
      some { status := PhaseStatusKind.in_progress, startedAt := some 0,
             completedAt := none } ∧
    (transitionPhase sampleState Phase.specification 9).phase =
      Phase.specification ∧
    (transitionPhase sampleState Phase.specification 9).phases.get
        Phase.ideation =
      some { status := PhaseStatusKind.complete, startedAt := some 0,
             completedAt := some 9 } ∧
    (transitionPhase sampleState Phase.specification 9).phases.get
        Phase.specification =
      some { status := PhaseStatusKind.in_progress, startedAt := some 9,
             completedAt := none } :=
  ⟨rfl,
   (transitionPhase_spec sampleState Phase.specification 9
      { status := PhaseStatusKind.in_progress, startedAt := some 0,
        completedAt := none }
      { status := PhaseStatusKind.pending, startedAt := none,
        completedAt := none }
      rfl rfl (by decide)).1,
   (transitionPhase_spec sampleState Phase.specification 9
      { status := PhaseStatusKind.in_progress, startedAt := some 0,
        completedAt := none }
      { status := PhaseStatusKind.pending, startedAt := none,
        completedAt := none }
      rfl rfl (by decide)).2.1,
   (transitionPhase_spec sampleState Phase.specification 9
      { status := PhaseStatusKind.in_progress, startedAt := some 0,
        completedAt := none }
      { status := PhaseStatusKind.pending, startedAt := none,
        completedAt := none }
      rfl rfl (by decide)).2.2.1⟩

/-! ## C5: the progress invariant -/

/-- The invariant claim C5 states: `total` is the number of tasks, the four
non-pending counters are the per-status counts, their sum is at most
`total`, and pending tasks account for the remainder. -/
def progressInv (s : ProjectState) : Prop :=
  s.progress.total = s.tasks.length ∧
  s.progress.completed + s.progress.inProgress + s.progress.blocked +
      s.progress.skipped ≤ s.progress.total ∧
  s.progress.completed =
    (s.tasks.filter fun t => t.status == TaskStatus.completed).length ∧
  s.progress.inProgress =
    (s.tasks.filter fun t => t.status == TaskStatus.in_progress).length ∧
  s.progress.blocked =
    (s.tasks.filter fun t => t.status == TaskStatus.blocked).length ∧
  s.progress.skipped =
    (s.tasks.filter fun t => t.status == TaskStatus.skipped).length ∧
  s.progress.total -
      (s.progress.completed + s.progress.inProgress + s.progress.blocked +
        s.progress.skipped) =
    (s.tasks.filter fun t => t.status == TaskStatus.pending).length

instance (s : ProjectState) : Decidable (progressInv s) := by
  unfold progressInv; infer_instance

/-- The five status filters partition the task list. -/
theorem count_statuses (l : List Task) :
    (l.filter fun t => t.status == TaskStatus.completed).length +
    (l.filter fun t => t.status == TaskStatus.in_progress).length +
    (l.filter fun t => t.status == TaskStatus.blocked).length +
    (l.filter fun t => t.status == TaskStatus.skipped).length +
    (l.filter fun t => t.status == TaskStatus.pending).length = l.length := by
  induction l with
  | nil => rfl
  | cons t ts ih =>
    cases h : t.status <;>
      simp only [List.filter_cons, h, List.length_cons] <;> simp <;> omega

theorem progressInv_updateProgress (s : ProjectState) :
    progressInv (updateProgress s) := by
  have h := count_statuses s.tasks
  unfold progressInv updateProgress
  dsimp only
  refine ⟨rfl, by omega, rfl, rfl, rfl, rfl, by omega⟩

/-- `progressInv` only looks at `tasks` and `progress`. -/
theorem progressInv_addHistory (s : ProjectState) (now : Nat) (a : String)
    (ag : Option AgentType) (tid : Option String)
    (d : Option HistoryDetails) (h : progressInv s) :
    progressInv (addHistory s now a ag tid d) := h

/-- C5: `updateProgress` (and `addTasks`, which ends in it) always
establishes the progress invariant, and every `startTask` / `completeTask` /
`failTask` call preserves it. -/
theorem progress_invariant (s : ProjectState) (taskId err : String)
    (now : Nat) (ts : List Task) :
    progressInv (updateProgress s) ∧
    progressInv (addTasks s ts) ∧
    (progressInv s →
      progressInv (startTask s taskId now).2 ∧
      progressInv (completeTask s taskId now).2 ∧
      progressInv (failTask s taskId err now).2) := by
  refine ⟨progressInv_updateProgress s, progressInv_updateProgress _, fun h => ⟨?_, ?_, ?_⟩⟩
  · unfold startTask
    cases hf : s.tasks.find? (fun t => t.id == taskId)
    · exact h
    · exact progressInv_addHistory _ _ _ _ _ _ (progressInv_updateProgress _)
  · unfold completeTask
    cases hf : s.tasks.find? (fun t => t.id == taskId)
    · exact h
    · exact progressInv_addHistory _ _ _ _ _ _ (progressInv_updateProgress _)
  · unfold failTask
    cases hf : s.tasks.find? (fun t => t.id == taskId)
    · exact h
    · exact progressInv_addHistory _ _ _ _ _ _ (progressInv_updateProgress _)

/-- Witness for C5 at a concrete state. -/
theorem progress_invariant_witness :
    progressInv sampleState ∧ progressInv (startTask sampleState "T1" 5).2 :=
  ⟨by decide,
   ((progress_invariant sampleState "T1" "e" 5 []).2.2 (by decide)).1⟩

/-! ## C3, C4: failTask and the retry scenario -/

/-- The task object as `startTask` leaves it. -/
def startedTask (t : Task) (now : Nat) : Task :=
  { t with status := TaskStatus.in_progress, startedAt := some now,
           attempts := t.attempts + 1 }

/-- The task object as `failTask` leaves it. -/
def mkFailed (t : Task) (err : String) : Task :=
  if t.attempts ≥ t.maxAttempts then
    { t with error := some err, status := TaskStatus.blocked }
  else
    { t with error := some err, status := TaskStatus.pending }

@[simp] theorem startedTask_id (t : Task) (now : Nat) :
    (startedTask t now).id = t.id := rfl

@[simp] theorem startedTask_attempts (t : Task) (now : Nat) :
    (startedTask t now).attempts = t.attempts + 1 := rfl

@[simp] theorem startedTask_maxAttempts (t : Task) (now : Nat) :
    (startedTask t now).maxAttempts = t.maxAttempts := rfl

@[simp] theorem startedTask_agent (t : Task) (now : Nat) :
    (startedTask t now).agent = t.agent := rfl

@[simp] theorem mkFailed_id (t : Task) (err : String) :
    (mkFailed t err).id = t.id := by
  unfold mkFailed; split <;> rfl

@[simp] theorem mkFailed_attempts (t : Task) (err : String) :
    (mkFailed t err).attempts = t.attempts := by
  unfold mkFailed; split <;> rfl

@[simp] theorem mkFailed_maxAttempts (t : Task) (err : String) :
    (mkFailed t err).maxAttempts = t.maxAttempts := by
  unfold mkFailed; split <;> rfl

@[simp] theorem mkFailed_agent (t : Task) (err : String) :
    (mkFailed t err).agent = t.agent := by
  unfold mkFailed; split <;> rfl

@[simp] theorem mkFailed_error (t : Task) (err : String) :
    (mkFailed t err).error = some err := by
  unfold mkFailed; split <;> rfl

theorem mkFailed_status_of_ge (t : Task) (err : String)
    (h : t.attempts ≥ t.maxAttempts) :
    (mkFailed t err).status = TaskStatus.blocked := by
  unfold mkFailed; rw [if_pos h]

theorem mkFailed_status_of_lt (t : Task) (err : String)
    (h : t.attempts < t.maxAttempts) :
    (mkFailed t err).status = TaskStatus.pending := by
  unfold mkFailed; rw [if_neg (by omega)]

theorem mkFailed_willRetry (t : Task) (err : String) :
    ((mkFailed t err).status == TaskStatus.pending) =
      decide (t.attempts < t.maxAttempts) := by
  by_cases h : t.attempts ≥ t.maxAttempts
  · rw [mkFailed_status_of_ge t err h]
    have hb : (TaskStatus.blocked == TaskStatus.pending) = false := rfl
    rw [hb]
    symm
    exact decide_eq_false (by omega)
  · rw [mkFailed_status_of_lt t err (by omega)]
    have hb : (TaskStatus.pending == TaskStatus.pending) = true := rfl
    rw [hb]
    symm
    exact decide_eq_true (by omega)

/-- Replacing the first task with the wanted id is what a subsequent lookup
of that id finds. -/
theorem find?_replaceFirstTask (l : List Task) (taskId : String)
    (t t2 : Task) (h : l.find? (fun u => u.id == taskId) = some t)
    (hid : (t2.id == taskId) = true) :
    (replaceFirstTask l taskId t2).find? (fun u => u.id == taskId) =
      some t2 := by
  induction l with
  | nil => exact absurd h (by simp)
  | cons u us ih =>
    by_cases hu : (u.id == taskId) = true
    · rw [replaceFirstTask]
      simp only [hu, if_true]
      exact List.find?_cons_of_pos _ hid
    · rw [replaceFirstTask]
      simp only [hu, Bool.false_eq_true, if_false]
      rw [List.find?_cons_of_neg _ (by simp [hu])]
      apply ih
      rwa [List.find?_cons_of_neg _ (by simp [hu])] at h

/-- The full equation of `startTask` on a successful lookup. -/
theorem startTask_eq (s : ProjectState) (taskId : String) (now : Nat)
    (t : Task) (h : s.tasks.find? (fun u => u.id == taskId) = some t) :
    startTask s taskId now =
      (some (startedTask t now),
       addHistory
         (updateProgress
           { s with
              tasks := replaceFirstTask s.tasks taskId (startedTask t now),
              currentTasks := s.currentTasks ++
                [{ id := taskId, agent := t.agent, startedAt := now,
                   attempt := t.attempts + 1 }] })
         now "task_started" (some t.agent) (some taskId)
         (some (HistoryDetails.taskStarted (t.attempts + 1)))) := by
  unfold startTask
  rw [h]
  rfl

/-- The full equation of `failTask` on a successful lookup. -/
theorem failTask_eq (s : ProjectState) (taskId err : String) (now : Nat)
    (t : Task) (h : s.tasks.find? (fun u => u.id == taskId) = some t) :
    failTask s taskId err now =
      (some (mkFailed t err),
       addHistory
         (updateProgress
           { s with
              tasks := replaceFirstTask s.tasks taskId (mkFailed t err),
              blockers :=
                if t.attempts ≥ t.maxAttempts then
                  s.blockers ++
                    [{ taskId := taskId, reason := err, since := now,
                       attempts := t.attempts }]
                else s.blockers,
              currentTasks :=
                s.currentTasks.filter fun ct => !(ct.id == taskId) })
         now "task_failed" (some (mkFailed t err).agent) (some taskId)
         (some (HistoryDetails.taskFailed err t.attempts
           ((mkFailed t err).status == TaskStatus.pending)))) := by
  unfold failTask mkFailed
  rw [h]
  by_cases hc : t.attempts ≥ t.maxAttempts <;> simp [hc]

/-- C3: `failTask` records the error, blocks with exactly one appended
`Blocker` (carrying the task id, the error, and the attempt count) exactly
when `attempts >= maxAttempts` and otherwise resets the task to `pending`
with no `Blocker`, removes the `CurrentTask` pointer, and logs `task_failed`
with `willRetry` true exactly when the task went back to `pending`. -/
theorem failTask_spec (s : ProjectState) (taskId err : String) (now : Nat)
    (t : Task) (h : s.tasks.find? (fun u => u.id == taskId) = some t) :
    (failTask s taskId err now).1 = some (mkFailed t err) ∧
    (mkFailed t err).error = some err ∧
    ((failTask s taskId err now).2.tasks.find? fun u => u.id == taskId) =
      some (mkFailed t err) ∧
    (t.attempts ≥ t.maxAttempts →
      (mkFailed t err).status = TaskStatus.blocked ∧
      (failTask s taskId err now).2.blockers =
        s.blockers ++
          [{ taskId := taskId, reason := err, since := now,
             attempts := t.attempts }]) ∧
    (t.attempts < t.maxAttempts →
      (mkFailed t err).status = TaskStatus.pending ∧
      (failTask s taskId err now).2.blockers = s.blockers) ∧
    (failTask s taskId err now).2.currentTasks =
      s.currentTasks.filter (fun ct => !(ct.id == taskId)) ∧
    (failTask s taskId err now).2.history =
      s.history ++
        [{ timestamp := now, action := "task_failed", agent := some t.agent,
           taskId := some taskId,
           details := some (HistoryDetails.taskFailed err t.attempts
             (decide (t.attempts < t.maxAttempts))) }] := by
  have hid : (t.id == taskId) = true := by
    have := List.find?_some h
    simpa using this
  rw [failTask_eq s taskId err now t h]
  refine ⟨rfl, mkFailed_error t err, ?_, ?_, ?_, ?_, ?_⟩
  · simp only [addHistory_tasks, updateProgress_tasks]
    exact find?_replaceFirstTask s.tasks taskId t (mkFailed t err) h
      (by simp [hid, mkFailed_id])
  · intro hge
    refine ⟨mkFailed_status_of_ge t err hge, ?_⟩
    simp only [addHistory_blockers, updateProgress_blockers]
    rw [if_pos hge]
  · intro hlt
    refine ⟨mkFailed_status_of_lt t err hlt, ?_⟩
    simp only [addHistory_blockers, updateProgress_blockers]
    rw [if_neg (by omega)]
  · simp only [addHistory_currentTasks, updateProgress_currentTasks]
  · simp only [addHistory_history, updateProgress_history]
    rw [mkFailed_willRetry, mkFailed_agent]

/-- Witness for C3 at a concrete state: first failure of a fresh task. -/
theorem failTask_spec_witness :
    sampleState.tasks.find? (fun u => u.id == "T1") = some sampleTask ∧
    (failTask sampleState "T1" "boom" 4).1 =
      some (mkFailed sampleTask "boom") ∧
    (sampleTask.attempts < sampleTask.maxAttempts →
      (mkFailed sampleTask "boom").status = TaskStatus.pending ∧
      (failTask sampleState "T1" "boom" 4).2.blockers =
        sampleState.blockers) :=
  ⟨by decide,
   (failTask_spec sampleState "T1" "boom" 4 sampleTask (by decide)).1,
   (failTask_spec sampleState "T1" "boom" 4 sampleTask (by decide)).2.2.2.2.1⟩

theorem startTask_state_find? (s : ProjectState) (taskId : String)
    (now : Nat) (t : Task)
    (h : s.tasks.find? (fun u => u.id == taskId) = some t) :
    (startTask s taskId now).2.tasks.find? (fun u => u.id == taskId) =
      some (startedTask t now) := by
  rw [startTask_eq s taskId now t h]
  simp only [addHistory_tasks, updateProgress_tasks]
  exact find?_replaceFirstTask s.tasks taskId t (startedTask t now) h
    (by simpa using List.find?_some h)

theorem startTask_state_blockers (s : ProjectState) (taskId : String)
    (now : Nat) (t : Task)
    (h : s.tasks.find? (fun u => u.id == taskId) = some t) :
    (startTask s taskId now).2.blockers = s.blockers := by
  rw [startTask_eq s taskId now t h]
  simp only [addHistory_blockers, updateProgress_blockers]

theorem failTask_state_find? (s : ProjectState) (taskId err : String)
    (now : Nat) (t : Task)
    (h : s.tasks.find? (fun u => u.id == taskId) = some t) :
    (failTask s taskId err now).2.tasks.find? (fun u => u.id == taskId) =
      some (mkFailed t err) := by
  rw [failTask_eq s taskId err now t h]
  simp only [addHistory_tasks, updateProgress_tasks]
  exact find?_replaceFirstTask s.tasks taskId t (mkFailed t err) h
    (by simpa using List.find?_some h)

theorem failTask_state_blockers (s : ProjectState) (taskId err : String)
    (now : Nat) (t : Task)
    (h : s.tasks.find? (fun u => u.id == taskId) = some t) :
    (failTask s taskId err now).2.blockers =
      (if t.attempts ≥ t.maxAttempts then
        s.blockers ++
          [{ taskId := taskId, reason := err, since := now,
             attempts := t.attempts }]
      else s.blockers) := by
  rw [failTask_eq s taskId err now t h]
  simp only [addHistory_blockers, updateProgress_blockers]

/-- C4: a task starting `pending` with `attempts = 0` and `maxAttempts = 3`
reaches `blocked` with `attempts = 3` after three start/fail cycles, with
exactly one `Blocker` entry for its id (the first two failures reset it to
`pending` without blocking). -/
theorem threeFailures_blocked (s : ProjectState) (pid err : String)
    (n1 n2 n3 n4 n5 n6 : Nat) (t : Task)
    (h : s.tasks.find? (fun u => u.id == pid) = some t)
    (_hst : t.status = TaskStatus.pending)
    (ha : t.attempts = 0) (hm : t.maxAttempts = 3)
    (hb : s.blockers.filter (fun b => b.taskId == pid) = []) :
    (∃ tf,
      (failTask (startTask (failTask (startTask (failTask (startTask
          s pid n1).2 pid err n2).2 pid n3).2 pid err n4).2 pid n5).2
          pid err n6).2.tasks.find? (fun u => u.id == pid) = some tf ∧
      tf.status = TaskStatus.blocked ∧ tf.attempts = 3) ∧
    ((failTask (startTask (failTask (startTask (failTask (startTask
        s pid n1).2 pid err n2).2 pid n3).2 pid err n4).2 pid n5).2
        pid err n6).2.blockers.filter (fun b => b.taskId == pid)).length
      = 1 := by
  have h1 := startTask_state_find? s pid n1 t h
  have b1 := startTask_state_blockers s pid n1 t h
  have h2 := failTask_state_find? _ pid err n2 _ h1
  have b2 := failTask_state_blockers _ pid err n2 _ h1
  rw [if_neg (by simp [ha, hm])] at b2
  have h3 := startTask_state_find? _ pid n3 _ h2
  have b3 := startTask_state_blockers _ pid n3 _ h2
  have h4 := failTask_state_find? _ pid err n4 _ h3
  have b4 := failTask_state_blockers _ pid err n4 _ h3
  rw [if_neg (by simp [ha, hm])] at b4
  have h5 := startTask_state_find? _ pid n5 _ h4
  have b5 := startTask_state_blockers _ pid n5 _ h4
  have h6 := failTask_state_find? _ pid err n6 _ h5
  have b6 := failTask_state_blockers _ pid err n6 _ h5
  rw [if_pos (by simp [ha, hm])] at b6
  refine ⟨⟨_, h6, ?_, ?_⟩, ?_⟩
  · exact mkFailed_status_of_ge _ _ (by simp [ha, hm])
  · simp [ha]
  · rw [b6, b5, b4, b3, b2, b1, List.filter_append, hb]
    simp [ha]

/-- Witness for C4 at a concrete state: `sampleTask` has `attempts = 0`,
`maxAttempts = 3`, and blocks exactly on the third failure. -/
theorem threeFailures_blocked_witness :
    sampleState.tasks.find? (fun u => u.id == "T1") = some sampleTask ∧
    ((failTask (startTask (failTask (startTask (failTask (startTask
        sampleState "T1" 1).2 "T1" "e" 2).2 "T1" 3).2 "T1" "e" 4).2
        "T1" 5).2 "T1" "e" 6).2.blockers.filter
        (fun b => b.taskId == "T1")).length = 1 :=
  ⟨by decide,
   (threeFailures_blocked sampleState "T1" "e" 1 2 3 4 5 6 sampleTask
      (by decide) (by decide) (by decide) (by decide) (by decide)).2⟩

/-! ## C1: getNextTask -/

theorem taskLE_trans : ∀ (a b c : Task), taskLE a b → taskLE b c → taskLE a c := by
  intro a b c hab hbc
  simp only [taskLE, decide_eq_true_eq] at hab hbc ⊢
  omega

theorem taskLE_total : ∀ (a b : Task), taskLE a b || taskLE b a := by
  intro a b
  rw [taskLE, taskLE]
  rcases Nat.le_total (priorityOrder a.priority) (priorityOrder b.priority)
    with h | h
  · simp [h]
  · simp [h]

/-- The head of the stable sort by priority rank is an element of minimal
rank, and among the minimal-rank elements it is the first one of the input
list. -/
theorem head_mergeSort_min (l : List Task) (t : Task)
    (h : (l.mergeSort taskLE).head? = some t) :
    t ∈ l ∧
    (∀ u ∈ l, priorityOrder t.priority ≤ priorityOrder u.priority) ∧
    l.find? (fun u => priorityOrder u.priority == priorityOrder t.priority) =
      some t := by
  induction l generalizing t with
  | nil => simp at h
  | cons a l ih =>
    obtain ⟨l₁, l₂, e1, e2, hlt⟩ :=
      List.mergeSort_cons taskLE_trans taskLE_total a l
    cases l₁ with
    | nil =>
      rw [e1] at h
      simp only [List.nil_append, List.head?_cons, Option.some.injEq] at h
      subst h
      have hsorted := List.sorted_mergeSort taskLE_trans taskLE_total (a :: l)
      rw [e1] at hsorted
      simp only [List.nil_append] at e2 hsorted
      refine ⟨List.mem_cons_self a l, ?_, ?_⟩
      · intro u hu
        rcases List.mem_cons.mp hu with rfl | hu2
        · exact Nat.le_refl _
        · have hu3 : u ∈ l₂ := by
            rw [← e2]
            exact List.mem_mergeSort.mpr hu2
          have := List.rel_of_pairwise_cons hsorted hu3
          simpa [taskLE] using this
      · exact List.find?_cons_of_pos _ (by simp)
    | cons c l₁ =>
      rw [e1] at h
      simp only [List.cons_append, List.head?_cons, Option.some.injEq] at h
      subst h
      have hc : (l.mergeSort taskLE).head? = some c := by
        rw [e2]; rfl
      obtain ⟨hmem, hmin, hfind⟩ := ih c hc
      have hrank : priorityOrder c.priority < priorityOrder a.priority := by
        have := hlt c (List.mem_cons_self c l₁)
        simp only [Bool.not_eq_true', taskLE, decide_eq_false_iff_not] at this
        omega
      refine ⟨List.mem_cons_of_mem a hmem, ?_, ?_⟩
      · intro u hu
        rcases List.mem_cons.mp hu with rfl | hu2
        · omega
        · exact hmin u hu2
      · rw [List.find?_cons_of_neg _ (by simp; omega), hfind]

/-- C1: `getNextTask` returns `none` exactly when no task is eligible, and
otherwise an eligible task of minimal priority rank, the earliest such task
in collection order; eligibility is pending status plus every dependency id
resolving to an existing `completed` task (a missing id silently makes the
task ineligible). -/
theorem getNextTask_spec (s : ProjectState) :
    (getNextTask s = none ↔ eligibleTasks s = []) ∧
    (∀ t, getNextTask s = some t →
      t ∈ eligibleTasks s ∧
      (∀ u ∈ eligibleTasks s,
        priorityOrder t.priority ≤ priorityOrder u.priority) ∧
      (eligibleTasks s).find?
          (fun u => priorityOrder u.priority == priorityOrder t.priority) =
        some t) ∧
    (∀ t, t ∈ eligibleTasks s ↔
      t ∈ s.tasks ∧ t.status = TaskStatus.pending ∧
        areDependenciesMet s t = true) ∧
    (∀ t, areDependenciesMet s t = true ↔
      ∀ depId ∈ t.dependencies, ∃ dep,
        s.tasks.find? (fun u => u.id == depId) = some dep ∧
          dep.status = TaskStatus.completed) := by
  refine ⟨?_, ?_, ?_, ?_⟩
  · rw [getNextTask, List.head?_eq_none_iff]
    constructor
    · intro h
      have hperm := List.mergeSort_perm (eligibleTasks s) taskLE
      rw [h] at hperm
      exact hperm.symm.eq_nil
    · intro h
      rw [h, List.mergeSort_nil]
  · intro t ht
    exact head_mergeSort_min (eligibleTasks s) t ht
  · intro t
    rw [eligibleTasks, List.mem_filter, isEligible]
    simp [Bool.and_eq_true, beq_iff_eq, and_assoc]
  · intro t
    rw [areDependenciesMet, List.all_eq_true]
    refine forall_congr' fun depId => imp_congr_right fun _ => ?_
    cases hf : s.tasks.find? (fun u => u.id == depId) with
    | none => simp
    | some dep => simp [beq_iff_eq]

/-- A second concrete task, of `critical` priority and a different agent. -/
def sampleTask2 : Task :=
  { id := "T2", title := "build ui", description := "implement the ui",
    status := TaskStatus.pending, priority := TaskPriority.critical,
    agent := AgentType.frontendDev, dependencies := [], outputs := ["ui.tsx"],
    attempts := 0, maxAttempts := 3 }

/-- `sampleTask` made ineligible by a dangling dependency id. -/
def depTask : Task :=
  { sampleTask with dependencies := ["T0"] }

/-- A state with one ineligible (dangling dependency) and one eligible
task. -/
def sampleState2 : ProjectState :=
  { sampleState with
      tasks := [depTask, sampleTask2],
      progress := { total := 2, completed := 0, inProgress := 0, blocked := 0,
                    skipped := 0, percentage := 0 } }

/-- Witness for C1: in `sampleState2` the dangling-dependency task is
skipped and the critical task is returned. -/
theorem getNextTask_spec_witness :
    getNextTask sampleState2 = some sampleTask2 ∧
    sampleTask2 ∈ eligibleTasks sampleState2 ∧
    (∀ u ∈ eligibleTasks sampleState2,
      priorityOrder sampleTask2.priority ≤ priorityOrder u.priority) ∧
    areDependenciesMet sampleState2 depTask = false := by
  have he : eligibleTasks sampleState2 = [sampleTask2] := by decide
  have hg : getNextTask sampleState2 = some sampleTask2 := by
    rw [getNextTask, he, List.mergeSort_singleton]
    rfl
  refine ⟨hg, ((getNextTask_spec sampleState2).2.1 sampleTask2 hg).1,
    ((getNextTask_spec sampleState2).2.1 sampleTask2 hg).2.1, by decide⟩

/-! ## C2: getParallelizableTasks -/

/-- Two tasks sharing no output identifier. -/
def outputsDisjoint (a b : Task) : Prop :=
  ∀ o, o ∈ a.outputs → o ∉ b.outputs

theorem hasFileConflict_eq_false_iff (sel : List Task) (t : Task) :
    hasFileConflict sel t = false ↔ ∀ u ∈ sel, outputsDisjoint u t := by
  simp [hasFileConflict, outputsDisjoint]

theorem addToGroups_member_agent :
    ∀ (acc : List (AgentType × List Task)) (t : Task),
    (∀ p ∈ acc, ∀ x ∈ p.2, x.agent = p.1) →
    ∀ p ∈ addToGroups acc t, ∀ x ∈ p.2, x.agent = p.1
  | [], t, _ => by
    intro p hp x hx
    simp only [addToGroups, List.mem_singleton] at hp
    subst hp
    simp only [List.mem_singleton] at hx
    subst hx
    rfl
  | (a, g) :: rest, t, hacc => by
    intro p hp x hx
    rw [addToGroups] at hp
    by_cases hag : a = t.agent
    · rw [if_pos hag] at hp
      rcases List.mem_cons.mp hp with rfl | hp2
      · rcases List.mem_append.mp hx with hx1 | hx2
        · exact hacc (a, g) (List.mem_cons_self _ _) x hx1
        · simp only [List.mem_singleton] at hx2
          subst hx2
          exact hag.symm
      · exact hacc p (List.mem_cons_of_mem _ hp2) x hx
    · rw [if_neg hag] at hp
      rcases List.mem_cons.mp hp with rfl | hp2
      · exact hacc (a, g) (List.mem_cons_self _ _) x hx
      · exact addToGroups_member_agent rest t
          (fun q hq => hacc q (List.mem_cons_of_mem _ hq)) p hp2 x hx

theorem addToGroups_keys :
    ∀ (acc : List (AgentType × List Task)) (t : Task)
      (p : AgentType × List Task), p ∈ addToGroups acc t →
      p.1 ∈ acc.map Prod.fst ∨ p.1 = t.agent
  | [], t, p, hp => by
    simp only [addToGroups, List.mem_singleton] at hp
    subst hp
    exact Or.inr rfl
  | (a, g) :: rest, t, p, hp => by
    rw [addToGroups] at hp
    by_cases hag : a = t.agent
    · rw [if_pos hag] at hp
      rcases List.mem_cons.mp hp with rfl | hp2
      · left; simp
      · left
        simp only [List.map_cons, List.mem_cons]
        exact Or.inr (List.mem_map_of_mem Prod.fst hp2)
    · rw [if_neg hag] at hp
      rcases List.mem_cons.mp hp with rfl | hp2
      · left; simp
      · rcases addToGroups_keys rest t p hp2 with h1 | h2
        · left
          simp only [List.map_cons, List.mem_cons]
          exact Or.inr h1
        · exact Or.inr h2

theorem addToGroups_keys_pairwise :
    ∀ (acc : List (AgentType × List Task)) (t : Task),
    List.Pairwise (fun p q => p.1 ≠ q.1) acc →
    List.Pairwise (fun p q => p.1 ≠ q.1) (addToGroups acc t)
  | [], t, _ => by
    simp [addToGroups]
  | (a, g) :: rest, t, hp => by
    obtain ⟨hhead, htail⟩ := List.pairwise_cons.mp hp
    rw [addToGroups]
    by_cases hag : a = t.agent
    · rw [if_pos hag]
      exact List.pairwise_cons.mpr ⟨hhead, htail⟩
    · rw [if_neg hag]
      refine List.pairwise_cons.mpr
        ⟨?_, addToGroups_keys_pairwise rest t htail⟩
      intro q hq
      rcases addToGroups_keys rest t q hq with h1 | h2
      · obtain ⟨q2, hq2, he⟩ := List.mem_map.mp h1
        rw [← he]
        exact hhead q2 hq2
      · rw [h2]
        exact hag

/-- `byAgent.get(a)` as the selection loop sees it. -/
def lookupGroup (groups : List (AgentType × List Task)) (a : AgentType) :
    List Task :=
  match groups.find? (fun p => p.1 == a) with
  | some p => p.2
  | none => []

theorem lookupGroup_nil (a : AgentType) : lookupGroup [] a = [] := rfl

theorem lookupGroup_cons_self (b : AgentType) (g : List Task)
    (rest : List (AgentType × List Task)) :
    lookupGroup ((b, g) :: rest) b = g := by
  rw [lookupGroup, List.find?_cons_of_pos _ (by simp)]

theorem lookupGroup_cons_ne (b : AgentType) (g : List Task)
    (rest : List (AgentType × List Task)) (a : AgentType) (h : b ≠ a) :
    lookupGroup ((b, g) :: rest) a = lookupGroup rest a := by
  rw [lookupGroup, lookupGroup, List.find?_cons_of_neg _ (by simp [h])]

theorem lookupGroup_addToGroups :
    ∀ (acc : List (AgentType × List Task)) (t : Task) (a : AgentType),
    lookupGroup (addToGroups acc t) a =
      if t.agent = a then lookupGroup acc a ++ [t] else lookupGroup acc a
  | [], t, a => by
    rw [addToGroups]
    by_cases h : t.agent = a
    · rw [if_pos h, lookupGroup_nil, List.nil_append, h,
        lookupGroup_cons_self]
    · rw [if_neg h, lookupGroup_nil, lookupGroup_cons_ne _ _ _ _ h,
        lookupGroup_nil]
  | (b, g) :: rest, t, a => by
    rw [addToGroups]
    by_cases hbt : b = t.agent
    · rw [if_pos hbt]
      by_cases hba : b = a
      · subst hba
        rw [lookupGroup_cons_self, if_pos hbt.symm, lookupGroup_cons_self]
      · rw [lookupGroup_cons_ne _ _ _ _ hba, if_neg (hbt ▸ hba),
          lookupGroup_cons_ne _ _ _ _ hba]
    · rw [if_neg hbt]
      by_cases hba : b = a
      · subst hba
        have hta : t.agent ≠ b := fun he => hbt he.symm
        rw [lookupGroup_cons_self, if_neg hta, lookupGroup_cons_self]
      · rw [lookupGroup_cons_ne _ _ _ _ hba,
          lookupGroup_addToGroups rest t a,
          lookupGroup_cons_ne _ _ _ _ hba]

theorem lookupGroup_foldl :
    ∀ (l : List Task) (acc : List (AgentType × List Task)) (a : AgentType),
    lookupGroup (l.foldl addToGroups acc) a =
      lookupGroup acc a ++ l.filter (fun x => x.agent == a)
  | [], acc, a => by simp
  | x :: xs, acc, a => by
    rw [List.foldl_cons, lookupGroup_foldl xs _ a, lookupGroup_addToGroups]
    by_cases h : x.agent = a
    · rw [if_pos h, List.filter_cons_of_pos (by simp [h]), List.append_assoc,
        List.singleton_append]
    · rw [if_neg h, List.filter_cons_of_neg (by simp [h])]

theorem lookupGroup_of_mem :
    ∀ (groups : List (AgentType × List Task)) (p : AgentType × List Task),
    List.Pairwise (fun p q => p.1 ≠ q.1) groups → p ∈ groups →
    lookupGroup groups p.1 = p.2
  | [], p, _, hp => by simp at hp
  | (b, g) :: rest, p, hpw, hp => by
    obtain ⟨hhead, htail⟩ := List.pairwise_cons.mp hpw
    rcases List.mem_cons.mp hp with rfl | hp2
    · exact lookupGroup_cons_self b g rest
    · rw [lookupGroup_cons_ne _ _ _ _ (hhead p hp2)]
      exact lookupGroup_of_mem rest p htail hp2

theorem groupByAgent_member_agent (l : List Task) :
    ∀ p ∈ groupByAgent l, ∀ x ∈ p.2, x.agent = p.1 := by
  rw [groupByAgent]
  suffices h : ∀ (l2 : List Task) (acc : List (AgentType × List Task)),
      (∀ p ∈ acc, ∀ x ∈ p.2, x.agent = p.1) →
      ∀ p ∈ l2.foldl addToGroups acc, ∀ x ∈ p.2, x.agent = p.1 by
    exact h l [] (by simp)
  intro l2
  induction l2 with
  | nil =>
    intro acc hacc
    simpa using hacc
  | cons x xs ih =>
    intro acc hacc
    rw [List.foldl_cons]
    exact ih _ (addToGroups_member_agent acc x hacc)

theorem groupByAgent_keys_pairwise (l : List Task) :
    List.Pairwise (fun p q => p.1 ≠ q.1) (groupByAgent l) := by
  rw [groupByAgent]
  suffices h : ∀ (l2 : List Task) (acc : List (AgentType × List Task)),
      List.Pairwise (fun p q => p.1 ≠ q.1) acc →
      List.Pairwise (fun p q => p.1 ≠ q.1) (l2.foldl addToGroups acc) by
    exact h l [] List.Pairwise.nil
  intro l2
  induction l2 with
  | nil =>
    intro acc hacc
    simpa using hacc
  | cons x xs ih =>
    intro acc hacc
    rw [List.foldl_cons]
    exact ih _ (addToGroups_keys_pairwise acc x hacc)

theorem groupByAgent_lookup (l : List Task) (a : AgentType) :
    lookupGroup (groupByAgent l) a = l.filter (fun x => x.agent == a) := by
  rw [groupByAgent, lookupGroup_foldl, lookupGroup_nil, List.nil_append]

/-- Each group of `byAgent` is exactly the sublist of tasks assigned to its
agent. -/
theorem groupByAgent_group_eq (l : List Task) (p : AgentType × List Task)
    (hp : p ∈ groupByAgent l) :
    p.2 = l.filter (fun x => x.agent == p.1) := by
  rw [← groupByAgent_lookup l p.1,
    lookupGroup_of_mem _ p (groupByAgent_keys_pairwise l) hp]

theorem selectFromGroups_length :
    ∀ (groups : List (AgentType × List Task)) (n : Nat) (sel : List Task),
    sel.length ≤ n → (selectFromGroups groups n sel).length ≤ n
  | [], _, _, h => h
  | (a, g) :: rest, n, sel, h => by
    rw [selectFromGroups]
    by_cases hl : sel.length ≥ n
    · rw [if_pos hl]; exact h
    · rw [if_neg hl]
      cases hf : (g.mergeSort taskLE).find? (fun t => !hasFileConflict sel t) with
      | some t =>
        exact selectFromGroups_length rest n (sel ++ [t]) (by simp; omega)
      | none => exact selectFromGroups_length rest n sel h

theorem selectFromGroups_mem :
    ∀ (groups : List (AgentType × List Task)) (n : Nat) (sel : List Task)
      (x : Task), x ∈ selectFromGroups groups n sel →
      x ∈ sel ∨ ∃ p, p ∈ groups ∧ x ∈ p.2
  | [], _, _, _, hx => Or.inl hx
  | (a, g) :: rest, n, sel, x, hx => by
    rw [selectFromGroups] at hx
    by_cases hl : sel.length ≥ n
    · rw [if_pos hl] at hx
      exact Or.inl hx
    · rw [if_neg hl] at hx
      cases hf : (g.mergeSort taskLE).find? (fun t => !hasFileConflict sel t) with
      | some t =>
        rw [hf] at hx
        rcases selectFromGroups_mem rest n (sel ++ [t]) x hx with
          hsel | ⟨p, hp, hxp⟩
        · rcases List.mem_append.mp hsel with h1 | h2
          · exact Or.inl h1
          · simp only [List.mem_singleton] at h2
            subst h2
            refine Or.inr ⟨(a, g), List.mem_cons_self _ _, ?_⟩
            exact List.mem_mergeSort.mp (List.mem_of_find?_eq_some hf)
        · exact Or.inr ⟨p, List.mem_cons_of_mem _ hp, hxp⟩
      | none =>
        rw [hf] at hx
        rcases selectFromGroups_mem rest n sel x hx with h1 | ⟨p, hp, hxp⟩
        · exact Or.inl h1
        · exact Or.inr ⟨p, List.mem_cons_of_mem _ hp, hxp⟩

theorem selectFromGroups_pairwise_outputs :
    ∀ (groups : List (AgentType × List Task)) (n : Nat) (sel : List Task),
    List.Pairwise outputsDisjoint sel →
    List.Pairwise outputsDisjoint (selectFromGroups groups n sel)
  | [], _, _, h => h
  | (a, g) :: rest, n, sel, h => by
    rw [selectFromGroups]
    by_cases hl : sel.length ≥ n
    · rw [if_pos hl]; exact h
    · rw [if_neg hl]
      cases hf : (g.mergeSort taskLE).find? (fun t => !hasFileConflict sel t) with
      | some t =>
        apply selectFromGroups_pairwise_outputs rest n (sel ++ [t])
        rw [List.pairwise_append]
        refine ⟨h, List.pairwise_singleton _ _, ?_⟩
        intro u hu v hv
        simp only [List.mem_singleton] at hv
        subst hv
        have hcf : hasFileConflict sel v = false := by
          simpa using List.find?_some hf
        exact (hasFileConflict_eq_false_iff sel v).mp hcf u hu
      | none => exact selectFromGroups_pairwise_outputs rest n sel h

theorem selectFromGroups_pairwise_agents :
    ∀ (groups : List (AgentType × List Task)) (n : Nat) (sel : List Task),
    (∀ p ∈ groups, ∀ x ∈ p.2, x.agent = p.1) →
    List.Pairwise (fun p q => p.1 ≠ q.1) groups →
    (∀ x ∈ sel, ∀ p ∈ groups, x.agent ≠ p.1) →
    List.Pairwise (fun x y : Task => x.agent ≠ y.agent) sel →
    List.Pairwise (fun x y : Task => x.agent ≠ y.agent)
      (selectFromGroups groups n sel)
  | [], _, _, _, _, _, h => h
  | (a, g) :: rest, n, sel, hmem, hkeys, hsel, h => by
    rw [selectFromGroups]
    obtain ⟨hka, hkt⟩ := List.pairwise_cons.mp hkeys
    by_cases hl : sel.length ≥ n
    · rw [if_pos hl]; exact h
    · rw [if_neg hl]
      cases hf : (g.mergeSort taskLE).find? (fun t => !hasFileConflict sel t) with
      | some t =>
        have htg : t ∈ g :=
          List.mem_mergeSort.mp (List.mem_of_find?_eq_some hf)
        have hta : t.agent = a := hmem (a, g) (List.mem_cons_self _ _) t htg
        refine selectFromGroups_pairwise_agents rest n (sel ++ [t])
          (fun p hp x hx => hmem p (List.mem_cons_of_mem _ hp) x hx)
          hkt ?_ ?_
        · intro x hx p hp
          rcases List.mem_append.mp hx with h1 | h2
          · exact hsel x h1 p (List.mem_cons_of_mem _ hp)
          · simp only [List.mem_singleton] at h2
            subst h2
            rw [hta]
            exact hka p hp
        · rw [List.pairwise_append]
          refine ⟨h, List.pairwise_singleton _ _, ?_⟩
          intro u hu v hv
          simp only [List.mem_singleton] at hv
          subst hv
          rw [hta]
          exact hsel u hu (a, g) (List.mem_cons_self _ _)
      | none =>
        exact selectFromGroups_pairwise_agents rest n sel
          (fun p hp x hx => hmem p (List.mem_cons_of_mem _ hp) x hx)
          hkt
          (fun x hx p hp => hsel x hx p (List.mem_cons_of_mem _ hp))
          h

/-- In a sorted list, `find?` returns an element of minimal rank among those
satisfying the predicate. -/
theorem find?_sorted_min :
    ∀ (l : List Task) (p : Task → Bool) (t : Task),
    List.Pairwise (fun x y => taskLE x y = true) l → l.find? p = some t →
    ∀ u ∈ l, p u = true →
      priorityOrder t.priority ≤ priorityOrder u.priority
  | [], _, _, _, hf => by simp at hf
  | a :: l, p, t, hs, hf => by
    obtain ⟨ha, htail⟩ := List.pairwise_cons.mp hs
    by_cases hpa : p a = true
    · rw [List.find?_cons_of_pos _ hpa] at hf
      injection hf with hf
      subst hf
      intro u hu _
      rcases List.mem_cons.mp hu with rfl | hu2
      · exact Nat.le_refl _
      · have := ha u hu2
        simpa [taskLE] using this
    · rw [List.find?_cons_of_neg _ (by simp [hpa])] at hf
      intro u hu hpu
      rcases List.mem_cons.mp hu with rfl | hu2
      · exact absurd hpu hpa
      · exact find?_sorted_min l p t htail hf u hu2 hpu

theorem selectFromGroups_groupMin (L : List Task) :
    ∀ (groups : List (AgentType × List Task)) (n : Nat) (sel : List Task),
    (∀ p ∈ groups, p.2 = L.filter (fun x => x.agent == p.1)) →
    (∀ i (hi : i < sel.length), ∀ u ∈ L,
      u.agent = (sel.get ⟨i, hi⟩).agent →
      hasFileConflict (sel.take i) u = false →
      priorityOrder (sel.get ⟨i, hi⟩).priority ≤ priorityOrder u.priority) →
    ∀ i (hi : i < (selectFromGroups groups n sel).length), ∀ u ∈ L,
      u.agent = ((selectFromGroups groups n sel).get ⟨i, hi⟩).agent →
      hasFileConflict ((selectFromGroups groups n sel).take i) u = false →
      priorityOrder ((selectFromGroups groups n sel).get ⟨i, hi⟩).priority ≤
        priorityOrder u.priority
  | [], _, _, _, hbase => hbase
  | (a, g) :: rest, n, sel, hgroups, hbase => by
    rw [selectFromGroups]
    by_cases hl : sel.length ≥ n
    · rw [if_pos hl]; exact hbase
    · rw [if_neg hl]
      cases hf : (g.mergeSort taskLE).find? (fun t => !hasFileConflict sel t) with
      | none =>
        exact selectFromGroups_groupMin L rest n sel
          (fun p hp => hgroups p (List.mem_cons_of_mem _ hp)) hbase
      | some t =>
        refine selectFromGroups_groupMin L rest n (sel ++ [t])
          (fun p hp => hgroups p (List.mem_cons_of_mem _ hp)) ?_
        intro i hi u hu hag hcf
        rcases Nat.lt_or_ge i sel.length with hilt | hige
        · have hget : (sel ++ [t]).get ⟨i, hi⟩ = sel.get ⟨i, hilt⟩ := by
            rw [List.get_eq_getElem, List.get_eq_getElem]
            exact List.getElem_append_left hilt
          have htake : (sel ++ [t]).take i = sel.take i :=
            List.take_append_of_le_length (by omega)
          rw [hget] at hag ⊢
          rw [htake] at hcf
          exact hbase i hilt u hu hag hcf
        · have hieq : i = sel.length := by
            have hlen : (sel ++ [t]).length = sel.length + 1 := by simp
            omega
          subst hieq
          have hget : (sel ++ [t]).get ⟨sel.length, hi⟩ = t := by
            rw [List.get_eq_getElem, List.getElem_append_right (Nat.le_refl _)]
            simp
          have htake : (sel ++ [t]).take sel.length = sel :=
            List.take_left sel [t]
          rw [hget] at hag ⊢
          rw [htake] at hcf
          have hg2 : g = L.filter (fun x => x.agent == a) :=
            hgroups (a, g) (List.mem_cons_self _ _)
          have htg : t ∈ g :=
            List.mem_mergeSort.mp (List.mem_of_find?_eq_some hf)
          have hta : t.agent = a := by
            rw [hg2] at htg
            simpa using (List.mem_filter.mp htg).2
          have hug : u ∈ g := by
            rw [hg2]
            exact List.mem_filter.mpr ⟨hu, by simp [hag, hta]⟩
          have hsorted :=
            List.sorted_mergeSort taskLE_trans taskLE_total g
          refine find?_sorted_min (g.mergeSort taskLE) _ t hsorted hf u
            (List.mem_mergeSort.mpr hug) ?_
          simp [hcf]

/-- C2: for every bound `n`, `getParallelizableTasks` returns at most `n`
tasks, all eligible, pairwise without shared output identifiers, at most one
per agent (pairwise distinct agents), and each selected task has minimal
priority rank among the eligible tasks of its agent group that have no
output conflict with the tasks selected before it. -/
theorem getParallelizableTasks_spec (s : ProjectState) (n : Nat) :
    (getParallelizableTasks s n).length ≤ n ∧
    (∀ t ∈ getParallelizableTasks s n, t ∈ eligibleTasks s) ∧
    List.Pairwise outputsDisjoint (getParallelizableTasks s n) ∧
    List.Pairwise (fun x y : Task => x.agent ≠ y.agent)
      (getParallelizableTasks s n) ∧
    (∀ i (hi : i < (getParallelizableTasks s n).length),
      ∀ u ∈ eligibleTasks s,
        u.agent = ((getParallelizableTasks s n).get ⟨i, hi⟩).agent →
        hasFileConflict ((getParallelizableTasks s n).take i) u = false →
        priorityOrder ((getParallelizableTasks s n).get ⟨i, hi⟩).priority ≤
          priorityOrder u.priority) := by
  simp only [getParallelizableTasks]
  refine ⟨?_, ?_, ?_, ?_, ?_⟩
  · exact selectFromGroups_length _ n [] (by simp)
  · intro t ht
    rcases selectFromGroups_mem _ n [] t ht with h1 | ⟨p, hp, hxp⟩
    · simp at h1
    · rw [groupByAgent_group_eq (eligibleTasks s) p hp] at hxp
      exact (List.mem_filter.mp hxp).1
  · exact selectFromGroups_pairwise_outputs _ n [] List.Pairwise.nil
  · exact selectFromGroups_pairwise_agents _ n []
      (groupByAgent_member_agent (eligibleTasks s))
      (groupByAgent_keys_pairwise (eligibleTasks s))
      (by simp) List.Pairwise.nil
  · exact selectFromGroups_groupMin (eligibleTasks s) _ n []
      (fun p hp => groupByAgent_group_eq (eligibleTasks s) p hp)
      (fun i hi => by simp at hi)

/-- Witness for C2 at a concrete state with one eligible task. -/
theorem getParallelizableTasks_spec_witness :
    getParallelizableTasks sampleState2 2 = [sampleTask2] ∧
    (getParallelizableTasks sampleState2 2).length ≤ 2 ∧
    sampleTask2 ∈ eligibleTasks sampleState2 ∧
    List.Pairwise outputsDisjoint (getParallelizableTasks sampleState2 2) ∧
    List.Pairwise (fun x y : Task => x.agent ≠ y.agent)
      (getParallelizableTasks sampleState2 2) := by
  have hr : getParallelizableTasks sampleState2 2 = [sampleTask2] := by
    have he : eligibleTasks sampleState2 = [sampleTask2] := by decide
    rw [getParallelizableTasks, he]
    rw [(by decide : groupByAgent [sampleTask2] =
      [(AgentType.frontendDev, [sampleTask2])])]
    rw [selectFromGroups, if_neg (by decide), List.mergeSort_singleton]
    rw [(by decide : ([sampleTask2].find?
      fun t => !hasFileConflict [] t) = some sampleTask2)]
    rfl
  refine ⟨hr, (getParallelizableTasks_spec sampleState2 2).1, ?_,
    (getParallelizableTasks_spec sampleState2 2).2.2.1,
    (getParallelizableTasks_spec sampleState2 2).2.2.2.1⟩
  exact (getParallelizableTasks_spec sampleState2 2).2.1 sampleTask2
    (by rw [hr]; exact List.mem_cons_self _ _)

end Orch
